import Mathlib

/-!
Shallow embedding of the portfolio ledger and trade-execution engine of the
crypto paper-trading repository (src/state/positionStore.ts and
src/types/trading.ts).  The file concatenates two zustand stores:

* a *position store* keeping a global list of positions and transactions
  (with a simulated trading fee), and
* a *portfolio store* keeping a list of portfolios, each with its own cash
  balance, position list and transaction log, plus an active-portfolio id.

Money and quantities are JS numbers in the source; we model them as ℚ.
Impure inputs (`Date.now()`, generated ids) are threaded as explicit
parameters (`now`, `txId`, `posId`, ...): they never influence the numeric
bookkeeping.
-/

namespace Tristero

/-- `OrderSide` from src/types/trading.ts: `'buy' | 'sell'`. -/
inductive Side where
  | buy
  | sell
deriving DecidableEq, Repr

/-- Position direction in the portfolio store: `'long' | 'short'`. -/
inductive PosType where
  | long
  | short
deriving DecidableEq, Repr

/-- First-match split: `findSplit f l = some (pre, x, post)` means `x` is the
element found by JavaScript `Array.prototype.findIndex` with predicate `f`
(`l = pre ++ x :: post` and no element of `pre` satisfies `f`).  Updating or
removing at the found index is then `pre ++ x' :: post` resp. `pre ++ post`. -/
def findSplit {α : Type} (f : α → Bool) : List α → Option (List α × α × List α)
  | [] => none
  | x :: xs =>
    if f x then some ([], x, xs)
    else
      match findSplit f xs with
      | some (pre, y, post) => some (x :: pre, y, post)
      | none => none

namespace PortfolioStore

/-- `Position` of the portfolio store (second half of positionStore.ts). -/
structure Position where
  id : String
  symbol : String
  quantity : ℚ
  entryPrice : ℚ
  entryTime : ℕ
  type : PosType
deriving DecidableEq, Repr

/-- `Transaction` of the portfolio store. -/
structure Transaction where
  id : String
  symbol : String
  type : Side
  quantity : ℚ
  price : ℚ
  timestamp : ℕ
  portfolioId : String
deriving DecidableEq, Repr

/-- `Portfolio` of the portfolio store.  `currentBalance` is kept in sync
with `balance` by every mutation in the source. -/
structure Portfolio where
  id : String
  name : String
  balance : ℚ
  currentBalance : ℚ
  initialBalance : ℚ
  positions : List Position
  transactions : List Transaction
  createdAt : ℕ
deriving DecidableEq, Repr

/-- The whole store state: `portfolios` and `activePortfolioId`. -/
structure PortfolioState where
  portfolios : List Portfolio
  activePortfolioId : Option String
deriving DecidableEq, Repr

/-- The trade argument of the portfolio store `executeTrade`. -/
structure Trade where
  symbol : String
  type : Side
  quantity : ℚ
  price : ℚ
deriving DecidableEq, Repr

/-- The transaction record pushed by `executeTrade` (both branches build the
same record shape; `pid` is the active portfolio's id). -/
def tradeTransaction (txId : String) (now : ℕ) (pid : String) (t : Trade) :
    Transaction :=
  { id := txId, symbol := t.symbol, type := t.type, quantity := t.quantity,
    price := t.price, timestamp := now, portfolioId := pid }

/-- The fresh position created by a buy with no existing position for the
symbol (`type: 'long'`). -/
def newBuyPosition (posId : String) (now : ℕ) (t : Trade) : Position :=
  { id := posId, symbol := t.symbol, quantity := t.quantity,
    entryPrice := t.price, entryTime := now, type := PosType.long }

/-- Average-cost merge of a buy into an existing position:
`totalQuantity = existing.quantity + trade.quantity`,
`newAvgPrice = (existing.quantity*existing.entryPrice + totalCost) / totalQuantity`
with `totalCost = trade.quantity * trade.price`. -/
def mergedPosition (pos : Position) (t : Trade) : Position :=
  let totalQuantity := pos.quantity + t.quantity
  let newAvgPrice :=
    (pos.quantity * pos.entryPrice + t.quantity * t.price) / totalQuantity
  { pos with quantity := totalQuantity, entryPrice := newAvgPrice }

/-- Body of the portfolio store `executeTrade` acting on the active
portfolio `p` (source lines 644–728).  `none` models the `return false`
paths, all of which occur before any mutation; `some p'` is the portfolio
written back by the final `set`. -/
def executeTradeOn (now : ℕ) (txId posId : String) (p : Portfolio)
    (t : Trade) : Option Portfolio :=
  let totalCost := t.quantity * t.price
  match t.type with
  | Side.buy =>
    if p.balance < totalCost then none
    else
      let newPositions :=
        match findSplit (fun pos => pos.symbol == t.symbol) p.positions with
        | some (pre, pos, post) => pre ++ mergedPosition pos t :: post
        | none => p.positions ++ [newBuyPosition posId now t]
      some { p with
        positions := newPositions,
        balance := p.balance - totalCost,
        currentBalance := p.balance - totalCost,
        transactions := p.transactions ++ [tradeTransaction txId now p.id t] }
  | Side.sell =>
    match findSplit (fun pos => pos.symbol == t.symbol) p.positions with
    | none => none
    | some (pre, pos, post) =>
      if pos.quantity < t.quantity then none
      else
        let newPositions :=
          if pos.quantity = t.quantity then pre ++ post
          else pre ++ { pos with quantity := pos.quantity - t.quantity } :: post
        some { p with
          positions := newPositions,
          balance := p.balance + totalCost,
          currentBalance := p.balance + totalCost,
          transactions := p.transactions ++ [tradeTransaction txId now p.id t] }

/-- Store-level `executeTrade`: acts on the active portfolio, returns the
boolean the source returns; every `false` path leaves the state untouched. -/
def executeTrade (now : ℕ) (txId posId : String) (s : PortfolioState)
    (t : Trade) : PortfolioState × Bool :=
  match s.activePortfolioId with
  | none => (s, false)
  | some aid =>
    match findSplit (fun p => p.id == aid) s.portfolios with
    | none => (s, false)
    | some (pre, p, post) =>
      match executeTradeOn now txId posId p t with
      | none => (s, false)
      | some p2 => ({ s with portfolios := pre ++ p2 :: post }, true)

/-- `createPortfolio`: $100k starting balance, becomes active if there was
no (truthy) active id. -/
def createPortfolio (now : ℕ) (pid : String) (name : String)
    (s : PortfolioState) : PortfolioState :=
  let newPortfolio : Portfolio :=
    { id := pid, name := name, balance := 100000, currentBalance := 100000,
      initialBalance := 100000, positions := [], transactions := [],
      createdAt := now }
  { portfolios := s.portfolios ++ [newPortfolio],
    activePortfolioId :=
      match s.activePortfolioId with
      | some a => if a = "" then some pid else some a
      | none => some pid }

/-- The default portfolio recreated by `deletePortfolio` when the last
portfolio is removed. -/
def defaultPortfolio (now : ℕ) (pid : String) : Portfolio :=
  { id := pid, name := "Default Portfolio", balance := 100000,
    currentBalance := 100000, initialBalance := 100000, positions := [],
    transactions := [], createdAt := now }

/-- `deletePortfolio` (source lines 591–622).  `remainingPortfolios[0]?.id
|| null` is modelled including the JS falsiness of the empty string. -/
def deletePortfolio (now : ℕ) (freshId : String) (s : PortfolioState)
    (pid : String) : PortfolioState :=
  let remaining := s.portfolios.filter (fun p => !(p.id == pid))
  if remaining = [] then
    { portfolios := [defaultPortfolio now freshId],
      activePortfolioId := some freshId }
  else
    { portfolios := remaining,
      activePortfolioId :=
        if s.activePortfolioId = some pid then
          match remaining.head? with
          | some q => if q.id = "" then none else some q.id
          | none => none
        else s.activePortfolioId }

/-- Price maps (`Record<string, number>`) as association lists; first
binding wins, as for JS object keys there are no duplicates anyway. -/
abbrev PriceMap := List (String × ℚ)

/-- `currentPrices[symbol]` as an optional value. -/
def lookupPrice (prices : PriceMap) (sym : String) : Option ℚ :=
  match List.find? (fun kv => kv.1 == sym) prices with
  | some kv => some kv.2
  | none => none

/-- `currentPrices[position.symbol] || position.entryPrice`: JS `||` falls
back not only when the key is absent but also when the stored price is `0`
(falsy). -/
def priceOrFallback (prices : PriceMap) (sym : String) (fallback : ℚ) : ℚ :=
  match lookupPrice prices sym with
  | some v => if v = 0 then fallback else v
  | none => fallback

/-- `getPortfolioValue` (source lines 762–775): `0` for an unknown id,
otherwise cash plus the positions' market value with entry-price fallback. -/
def getPortfolioValue (s : PortfolioState) (pid : String)
    (prices : PriceMap) : ℚ :=
  match List.find? (fun p => p.id == pid) s.portfolios with
  | none => 0
  | some portfolio =>
    portfolio.positions.foldl
      (fun total pos =>
        total + pos.quantity * priceOrFallback prices pos.symbol pos.entryPrice)
      portfolio.balance

/-- `getTotalPnL` (source lines 777–783): `0` for an unknown id, otherwise
current value minus initial balance. -/
def getTotalPnL (s : PortfolioState) (pid : String) (prices : PriceMap) : ℚ :=
  match List.find? (fun p => p.id == pid) s.portfolios with
  | none => 0
  | some portfolio => getPortfolioValue s pid prices - portfolio.initialBalance

/-! Ghost observers for the conservation property (claim C1).  The store
never records realized P&L or trade proceeds, so these are computed
alongside the run. -/

/-- One `executeTrade` call as a total state transformer: a rejected trade
(`return false`) leaves the portfolio unchanged.  Generated ids and
timestamps do not enter any balance, so they are fixed to defaults here. -/
def applyTrade (p : Portfolio) (t : Trade) : Portfolio :=
  (executeTradeOn 0 "" "" p t).getD p

/-- A sequence of `executeTrade` calls. -/
def runTrades (p : Portfolio) : List Trade → Portfolio
  | [] => p
  | t :: ts => runTrades (applyTrade p t) ts

/-- `Σ quantity × entryPrice` over a position list (the open positions'
cost-basis book value). -/
def positionsBookValue (l : List Position) : ℚ :=
  (l.map (fun pos => pos.quantity * pos.entryPrice)).sum

/-- Modelled from the spec (glossary: "Realized P&L: profit/loss locked in
by a completed (sell) transaction, computed against its matched cost
basis"; the position model keeps a single average-cost basis): a successful
sell of `q` at price `p` against a position with entry price `e` realizes
`q × (p − e)`; a buy or a rejected trade realizes nothing. -/
def realizedDelta (p : Portfolio) (t : Trade) : ℚ :=
  match t.type with
  | Side.buy => 0
  | Side.sell =>
    match findSplit (fun pos => pos.symbol == t.symbol) p.positions with
    | none => 0
    | some (_, pos, _) =>
      if pos.quantity < t.quantity then 0
      else t.quantity * (t.price - pos.entryPrice)

/-- Total realized P&L accumulated over a trade sequence. -/
def runRealized (p : Portfolio) : List Trade → ℚ
  | [] => 0
  | t :: ts => realizedDelta p t + runRealized (applyTrade p t) ts

/-- Modelled from the spec ("Σ(signed trade proceeds)" in §8, the cash-flow
sign convention of §4.2: a buy debits, a sell credits): the signed cash
movement `±quantity × price` of a successful trade, `0` for a rejected
one. -/
def proceedsDelta (p : Portfolio) (t : Trade) : ℚ :=
  if (executeTradeOn 0 "" "" p t).isSome then
    match t.type with
    | Side.buy => -(t.quantity * t.price)
    | Side.sell => t.quantity * t.price
  else 0

/-- Total signed trade proceeds accumulated over a trade sequence. -/
def runProceeds (p : Portfolio) : List Trade → ℚ
  | [] => 0
  | t :: ts => proceedsDelta p t + runProceeds (applyTrade p t) ts

/-- A freshly created portfolio as `createPortfolio` builds it
(`cashBalance = initialBalance = 100000`, no positions, no transactions). -/
def freshPortfolio : Portfolio :=
  { id := "portfolio_1", name := "Main Portfolio", balance := 100000,
    currentBalance := 100000, initialBalance := 100000, positions := [],
    transactions := [], createdAt := 0 }

/-- Modelled from the spec (§4.2 `portfolioValue`):
`cashBalance + Σ positionMarketValue(p, priceMap[p.symbol] ?? p.entryPrice)`
— the fallback to the entry price applies exactly when the symbol is
*missing* from the price map. -/
def specPortfolioValue (p : Portfolio) (prices : PriceMap) : ℚ :=
  p.balance +
    (p.positions.map
      (fun pos => pos.quantity * (lookupPrice prices pos.symbol).getD pos.entryPrice)).sum

end PortfolioStore

namespace PositionStore

/-- `DEFAULT_TRADING_FEE_PERCENT` from src/types/trading.ts line 232:
`0.001` (0.1%). -/
def DEFAULT_TRADING_FEE_PERCENT : ℚ := 1 / 1000

/-- `Position` from src/types/trading.ts (used by the position store). -/
structure Position where
  id : String
  portfolioId : String
  symbol : String
  side : Side
  quantity : ℚ
  entryPrice : ℚ
  currentPrice : ℚ
  unrealizedPnL : ℚ
  unrealizedPnLPercent : ℚ
  createdAt : ℕ
  updatedAt : ℕ
deriving DecidableEq, Repr

/-- `Transaction` from src/types/trading.ts. -/
structure Transaction where
  id : String
  portfolioId : String
  symbol : String
  side : Side
  quantity : ℚ
  price : ℚ
  fee : ℚ
  total : ℚ
  timestamp : ℕ
  orderId : Option String
deriving DecidableEq, Repr

/-- The position store's state, restricted to the fields the trading path
reads or writes (`orders` is untouched by `executeTrade`/`closePosition`). -/
structure StoreState where
  positions : List Position
  transactions : List Transaction
deriving DecidableEq, Repr

/-- `calculatePositionPnL(position, currentPrice)` returning
`(unrealizedPnL, unrealizedPnLPercent)`. -/
def calculatePositionPnL (position : Position) (currentPrice : ℚ) : ℚ × ℚ :=
  let multiplier : ℚ := if position.side = Side.buy then 1 else -1
  let priceChange := currentPrice - position.entryPrice
  let unrealizedPnL := multiplier * priceChange * position.quantity
  let unrealizedPnLPercent :=
    if 0 < position.entryPrice then
      priceChange / position.entryPrice * 100 * multiplier
    else 0
  (unrealizedPnL, unrealizedPnLPercent)

/-- `closePosition(id, closePrice)` (source lines 118–148): removes the
position (filter by id) and appends a closing transaction on the opposite
side, with fee `quantity*closePrice*DEFAULT_TRADING_FEE_PERCENT` and net
total.  The unused P&L destructuring of the source is dropped. -/
def closePosition (txId : String) (now : ℕ) (s : StoreState) (id : String)
    (closePrice : ℚ) : StoreState :=
  match List.find? (fun p => p.id == id) s.positions with
  | none => s
  | some position =>
    let fee := position.quantity * closePrice * DEFAULT_TRADING_FEE_PERCENT
    let netAmount := position.quantity * closePrice - fee
    let closingTransaction : Transaction :=
      { id := txId, portfolioId := position.portfolioId,
        symbol := position.symbol,
        side := if position.side = Side.buy then Side.sell else Side.buy,
        quantity := position.quantity, price := closePrice, fee := fee,
        total := netAmount, timestamp := now, orderId := none }
    { positions := s.positions.filter (fun p => !(p.id == id)),
      transactions := s.transactions ++ [closingTransaction] }

/-- The transaction appended first by every position store `executeTrade`
call (fee `quantity*price*DEFAULT_TRADING_FEE_PERCENT`, total gross±fee). -/
def fillTransaction (txId : String) (now : ℕ) (portfolioId symbol : String)
    (side : Side) (quantity price : ℚ) : Transaction :=
  let fee := quantity * price * DEFAULT_TRADING_FEE_PERCENT
  let grossAmount := quantity * price
  let netAmount := if side = Side.buy then grossAmount + fee else grossAmount - fee
  { id := txId, portfolioId := portfolioId, symbol := symbol, side := side,
    quantity := quantity, price := price, fee := fee, total := netAmount,
    timestamp := now, orderId := none }

/-- `executeTrade` of the position store (source lines 263–368).  The id
and timestamp inputs (`Date.now()`, `generateId`) are parameters: `txId`
for the fill transaction, `txId2` for a closing transaction, `posId` for a
freshly created position.  The source's result is always
`{ success: true, … }` (nothing in the body throws), so only the state is
returned. -/
def executeTrade (txId txId2 posId : String) (now : ℕ) (s : StoreState)
    (portfolioId symbol : String) (side : Side) (quantity price : ℚ) :
    StoreState :=
  let s1 : StoreState :=
    { s with transactions :=
        s.transactions ++ [fillTransaction txId now portfolioId symbol side quantity price] }
  match List.find? (fun p => p.portfolioId == portfolioId && p.symbol == symbol)
      s.positions with
  | some existingPosition =>
    if existingPosition.side = side then
      -- same side: merge with volume-weighted average entry price
      let newQuantity := existingPosition.quantity + quantity
      let newEntryPrice :=
        (existingPosition.entryPrice * existingPosition.quantity + price * quantity)
          / newQuantity
      { s1 with positions :=
          s1.positions.map (fun p =>
            if p.id == existingPosition.id then
              { p with
                quantity := newQuantity
                entryPrice := newEntryPrice
                currentPrice := price
                updatedAt := now }
            else p) }
    else
      if existingPosition.quantity ≤ quantity then
        -- opposite side, quantity ≥ held: close, and reopen any excess
        let s2 := closePosition txId2 now s1 existingPosition.id price
        if existingPosition.quantity < quantity then
          let remainingQuantity := quantity - existingPosition.quantity
          let pnl := calculatePositionPnL
            { existingPosition with entryPrice := price, currentPrice := price }
            price
          { s2 with positions := s2.positions ++
              [{ id := posId, portfolioId := portfolioId, symbol := symbol,
                 side := side, quantity := remainingQuantity,
                 entryPrice := price, currentPrice := price,
                 unrealizedPnL := pnl.1, unrealizedPnLPercent := pnl.2,
                 createdAt := now, updatedAt := now }]}
        else s2
      else
        -- opposite side, quantity < held: reduce the position
        { s1 with positions :=
            s1.positions.map (fun p =>
              if p.id == existingPosition.id then
                { p with
                  quantity := existingPosition.quantity - quantity
                  currentPrice := price
                  updatedAt := now }
              else p) }
  | none =>
    -- no existing position: create one at entry price = fill price.  The
    -- source computes the P&L of a partial record whose quantity is absent
    -- (priceChange is 0); we model the product with the missing quantity
    -- as 0.
    { s1 with positions := s1.positions ++
        [{ id := posId, portfolioId := portfolioId, symbol := symbol,
           side := side, quantity := quantity, entryPrice := price,
           currentPrice := price, unrealizedPnL := 0,
           unrealizedPnLPercent := if 0 < price then 0 else 0,
           createdAt := now, updatedAt := now }]}

end PositionStore

/-! # Lemmas and theorems -/

theorem findSplit_eq {α : Type} {f : α → Bool} :
    ∀ {l pre post : List α} {x : α},
      findSplit f l = some (pre, x, post) →
      l = pre ++ x :: post ∧ f x = true ∧ ∀ y ∈ pre, f y = false := by
  intro l
  induction l with
  | nil => intro pre post x h; simp [findSplit] at h
  | cons a as ih =>
    intro pre post x h
    by_cases ha : f a = true
    · simp [findSplit, ha] at h
      obtain ⟨h1, h2, h3⟩ := h
      subst h1; subst h2; subst h3
      exact ⟨rfl, ha, by intro y hy; simp at hy⟩
    · simp only [findSplit, Bool.not_eq_true] at ha
      simp only [findSplit, ha, Bool.false_eq_true, if_false] at h
      cases hrec : findSplit f as with
      | none => rw [hrec] at h; simp at h
      | some triple =>
        obtain ⟨pre', y, post'⟩ := triple
        rw [hrec] at h
        simp at h
        obtain ⟨h1, h2, h3⟩ := h
        obtain ⟨hl, hf, hpre⟩ := ih hrec
        subst h1; subst h2; subst h3
        refine ⟨by simp [hl], hf, ?_⟩
        intro y hy
        rcases List.mem_cons.mp hy with hya | hyp
        · subst hya; exact ha
        · exact hpre y hyp

namespace PortfolioStore

theorem positionsBookValue_append (l1 l2 : List Position) :
    positionsBookValue (l1 ++ l2) = positionsBookValue l1 + positionsBookValue l2 := by
  simp [positionsBookValue]

theorem positionsBookValue_cons (x : Position) (l : List Position) :
    positionsBookValue (x :: l) = x.quantity * x.entryPrice + positionsBookValue l := by
  simp [positionsBookValue]

/-- Value of the merged position: the volume-weighted average entry price
is exactly the price that preserves `quantity × entryPrice` book value. -/
theorem mergedPosition_value (pos : Position) (t : Trade)
    (h : pos.quantity + t.quantity ≠ 0) :
    (mergedPosition pos t).quantity * (mergedPosition pos t).entryPrice
      = pos.quantity * pos.entryPrice + t.quantity * t.price := by
  simp only [mergedPosition]
  rw [mul_comm, div_mul_cancel₀ _ h]

/-- One `executeTrade` call on the active portfolio preserves positivity of
all position quantities and changes `cashBalance + book value` by exactly
the realized P&L of the trade. -/
theorem applyTrade_step (p : Portfolio) (t : Trade)
    (hq : 0 < t.quantity)
    (hpos : ∀ pos ∈ p.positions, 0 < pos.quantity) :
    (∀ pos ∈ (applyTrade p t).positions, 0 < pos.quantity) ∧
    (applyTrade p t).balance + positionsBookValue (applyTrade p t).positions
      = p.balance + positionsBookValue p.positions + realizedDelta p t := by
  obtain ⟨symbol, ttype, quantity, price⟩ := t
  cases ttype with
  | buy =>
    by_cases hb : p.balance < quantity * price
    · constructor
      · simpa [applyTrade, executeTradeOn, hb] using hpos
      · simp [applyTrade, executeTradeOn, hb, realizedDelta]
    · cases hfs : findSplit (fun pos => pos.symbol == symbol) p.positions with
      | none =>
        constructor
        · intro pos hmem
          simp only [applyTrade, executeTradeOn, hb, if_false, hfs,
            Option.getD_some] at hmem
          rcases List.mem_append.mp hmem with hold | hnew
          · exact hpos pos hold
          · simp only [List.mem_singleton] at hnew
            subst hnew
            exact hq
        · simp [applyTrade, executeTradeOn, hb, hfs, realizedDelta,
            positionsBookValue_append, positionsBookValue, newBuyPosition]
      | some triple =>
        obtain ⟨pre, pos, post⟩ := triple
        obtain ⟨hl, -, -⟩ := findSplit_eq hfs
        have hposq : 0 < pos.quantity :=
          hpos pos (by rw [hl]; exact List.mem_append_right _ (List.mem_cons_self _ _))
        have hden : pos.quantity + quantity ≠ 0 := by positivity
        constructor
        · intro q hmem
          simp only [applyTrade, executeTradeOn, hb, if_false, hfs,
            Option.getD_some] at hmem
          rcases List.mem_append.mp hmem with hpre | hrest
          · exact hpos q (by rw [hl]; exact List.mem_append_left _ hpre)
          · rcases List.mem_cons.mp hrest with hm | hpost
            · subst hm
              have : (mergedPosition pos ⟨symbol, Side.buy, quantity, price⟩).quantity
                  = pos.quantity + quantity := rfl
              rw [this]
              positivity
            · exact hpos q (by
                rw [hl]
                exact List.mem_append_right _ (List.mem_cons_of_mem _ hpost))
        · have hmv := mergedPosition_value pos ⟨symbol, Side.buy, quantity, price⟩ hden
          simp only [applyTrade, executeTradeOn, hb, if_false, hfs,
            Option.getD_some, realizedDelta]
          rw [hl]
          simp only [positionsBookValue_append, positionsBookValue_cons]
          rw [hmv]
          ring
  | sell =>
    cases hfs : findSplit (fun pos => pos.symbol == symbol) p.positions with
    | none =>
      constructor
      · simpa [applyTrade, executeTradeOn, hfs] using hpos
      · simp [applyTrade, executeTradeOn, hfs, realizedDelta]
    | some triple =>
      obtain ⟨pre, pos, post⟩ := triple
      obtain ⟨hl, -, -⟩ := findSplit_eq hfs
      have hposq : 0 < pos.quantity :=
        hpos pos (by rw [hl]; exact List.mem_append_right _ (List.mem_cons_self _ _))
      by_cases hlt : pos.quantity < quantity
      · constructor
        · simpa [applyTrade, executeTradeOn, hfs, hlt] using hpos
        · simp [applyTrade, executeTradeOn, hfs, hlt, realizedDelta]
      · have hreal : realizedDelta p ⟨symbol, Side.sell, quantity, price⟩
            = quantity * (price - pos.entryPrice) := by
          simp [realizedDelta, hfs, hlt]
        have hbal : (applyTrade p ⟨symbol, Side.sell, quantity, price⟩).balance
            = p.balance + quantity * price := by
          by_cases heq : pos.quantity = quantity
          · simp [applyTrade, executeTradeOn, hfs, hlt, heq]
          · simp [applyTrade, executeTradeOn, hfs, hlt, heq]
        by_cases heq : pos.quantity = quantity
        · have hps : (applyTrade p ⟨symbol, Side.sell, quantity, price⟩).positions
              = pre ++ post := by
            simp [applyTrade, executeTradeOn, hfs, hlt, heq]
          constructor
          · intro q hmem
            rw [hps] at hmem
            rcases List.mem_append.mp hmem with hpre | hpost
            · exact hpos q (by rw [hl]; exact List.mem_append_left _ hpre)
            · exact hpos q (by
                rw [hl]
                exact List.mem_append_right _ (List.mem_cons_of_mem _ hpost))
          · rw [hbal, hps, hreal, hl]
            simp only [positionsBookValue_append, positionsBookValue_cons]
            rw [heq]
            ring
        · have hps : (applyTrade p ⟨symbol, Side.sell, quantity, price⟩).positions
              = pre ++ { pos with quantity := pos.quantity - quantity } :: post := by
            simp [applyTrade, executeTradeOn, hfs, hlt, heq]
          constructor
          · intro q hmem
            rw [hps] at hmem
            rcases List.mem_append.mp hmem with hpre | hrest
            · exact hpos q (by rw [hl]; exact List.mem_append_left _ hpre)
            · rcases List.mem_cons.mp hrest with hm | hpost
              · subst hm
                have hql : quantity < pos.quantity :=
                  lt_of_le_of_ne (not_lt.mp hlt) (fun h => heq h.symm)
                simpa using sub_pos.mpr hql
              · exact hpos q (by
                  rw [hl]
                  exact List.mem_append_right _ (List.mem_cons_of_mem _ hpost))
          · rw [hbal, hps, hreal, hl]
            simp only [positionsBookValue_append, positionsBookValue_cons]
            ring

/-- Over a whole run: position quantities stay positive and
`cashBalance + book value` moves only by accumulated realized P&L. -/
theorem conservation_run (ts : List Trade) :
    ∀ p : Portfolio, (∀ t ∈ ts, 0 < t.quantity) →
      (∀ pos ∈ p.positions, 0 < pos.quantity) →
      (∀ pos ∈ (runTrades p ts).positions, 0 < pos.quantity) ∧
      (runTrades p ts).balance + positionsBookValue (runTrades p ts).positions
        = p.balance + positionsBookValue p.positions + runRealized p ts := by
  induction ts with
  | nil => intro p _ hpos; exact ⟨hpos, by simp [runTrades, runRealized]⟩
  | cons t ts ih =>
    intro p hts hpos
    have hstep := applyTrade_step p t (hts t (List.mem_cons_self _ _)) hpos
    have hrec := ih (applyTrade p t)
      (fun t' ht' => hts t' (List.mem_cons_of_mem _ ht')) hstep.1
    refine ⟨by simpa [runTrades] using hrec.1, ?_⟩
    simp only [runTrades, runRealized]
    rw [hrec.2, hstep.2]
    ring

/-- C1 as stated is false on the code: after the single successful buy of
1 BTC @ 100 from a fresh portfolio, `cashBalance + Σ(quantity×entryPrice) +
Σ(realized P&L)` is `99900 + 100 + 0 = 100000`, while `initialBalance +
Σ(signed trade proceeds)` is `100000 − 100 = 99900`. -/
theorem C1_claim_counterexample :
    ¬ ((runTrades freshPortfolio [⟨"BTC", Side.buy, 1, 100⟩]).balance
        + positionsBookValue (runTrades freshPortfolio [⟨"BTC", Side.buy, 1, 100⟩]).positions
        + runRealized freshPortfolio [⟨"BTC", Side.buy, 1, 100⟩]
       = freshPortfolio.initialBalance
         + runProceeds freshPortfolio [⟨"BTC", Side.buy, 1, 100⟩]) := by
  norm_num [runTrades, applyTrade, executeTradeOn, freshPortfolio, findSplit,
    positionsBookValue, runRealized, realizedDelta, runProceeds, proceedsDelta,
    mergedPosition, newBuyPosition, tradeTransaction]

/-- C1 (amended): for every sequence of `executeTrade` calls with positive
quantities starting from a freshly created portfolio (`cashBalance =
initialBalance`, no positions, no transactions), after the trades
`cashBalance + Σ(quantity × entryPrice over open positions) = initialBalance
+ Σ(realized P&L over closed trades)` — bookkeeping alone creates or
destroys no value. -/
theorem C1_conservation (p0 : Portfolio) (ts : List Trade)
    (hfresh_pos : p0.positions = [])
    (hfresh_bal : p0.balance = p0.initialBalance)
    (hts : ∀ t ∈ ts, 0 < t.quantity) :
    (runTrades p0 ts).balance + positionsBookValue (runTrades p0 ts).positions
      = p0.initialBalance + runRealized p0 ts := by
  have h := conservation_run ts p0 hts (by rw [hfresh_pos]; simp)
  rw [h.2, hfresh_pos, hfresh_bal]
  simp [positionsBookValue]

/-- C1 witness: the amended conservation identity, instantiated on the run
buy 2 BTC @ 100 then sell 1 BTC @ 150 from a fresh portfolio. -/
theorem C1_conservation_witness :
    (runTrades freshPortfolio [⟨"BTC", Side.buy, 2, 100⟩, ⟨"BTC", Side.sell, 1, 150⟩]).balance
      + positionsBookValue
          (runTrades freshPortfolio
            [⟨"BTC", Side.buy, 2, 100⟩, ⟨"BTC", Side.sell, 1, 150⟩]).positions
      = freshPortfolio.initialBalance
        + runRealized freshPortfolio
            [⟨"BTC", Side.buy, 2, 100⟩, ⟨"BTC", Side.sell, 1, 150⟩] :=
  C1_conservation freshPortfolio _ rfl rfl
    (by intro t ht; fin_cases ht <;> norm_num)

theorem findSplit_eq_none {α : Type} {f : α → Bool} :
    ∀ {l : List α}, (∀ x ∈ l, f x = false) → findSplit f l = none := by
  intro l
  induction l with
  | nil => intro _; rfl
  | cons a as ih =>
    intro h
    have ha := h a (List.mem_cons_self _ _)
    simp only [findSplit, ha, Bool.false_eq_true, if_false]
    rw [ih (fun x hx => h x (List.mem_cons_of_mem _ hx))]

/-- C2: a buy whose total cost `quantity × price` exceeds the active
portfolio's cash balance fails (the source signals the insufficient-funds
failure as `return false`) and the store — cash balance, positions and
transaction log of every portfolio — is returned exactly as it was. -/
theorem C2_insufficient_funds_atomic (now : ℕ) (txId posId : String)
    (s : PortfolioState) (aid : String) (pre post : List Portfolio)
    (p : Portfolio) (t : Trade)
    (ha : s.activePortfolioId = some aid)
    (hf : findSplit (fun q => q.id == aid) s.portfolios = some (pre, p, post))
    (hbuy : t.type = Side.buy)
    (hq : 0 < t.quantity) (hp : 0 < t.price)
    (hcost : p.balance < t.quantity * t.price) :
    executeTrade now txId posId s t = (s, false) := by
  simp [executeTrade, ha, hf, executeTradeOn, hbuy, hcost]

/-- Store whose active portfolio has only 50 in cash. -/
def poorStore : PortfolioState :=
  { portfolios := [{ freshPortfolio with balance := 50, currentBalance := 50 }],
    activePortfolioId := some "portfolio_1" }

/-- C2 witness: a buy of 1 BTC @ 100 against 50 in cash fails and leaves
the store untouched. -/
theorem C2_insufficient_funds_atomic_witness :
    executeTrade 0 "tx_1" "pos_1" poorStore ⟨"BTC", Side.buy, 1, 100⟩
      = (poorStore, false) :=
  C2_insufficient_funds_atomic 0 "tx_1" "pos_1" poorStore "portfolio_1"
    [] [] { freshPortfolio with balance := 50, currentBalance := 50 }
    ⟨"BTC", Side.buy, 1, 100⟩ rfl (by decide) rfl (by norm_num) (by norm_num)
    (by norm_num [freshPortfolio])

/-- C3: a sell with no open position for the symbol fails (`NoPosition`,
signalled as `return false`), and a sell of more than the first held
position's quantity fails (`InsufficientQuantity`); in both cases the store
state is returned exactly as it was. -/
theorem C3_sell_failures_atomic :
    (∀ (now : ℕ) (txId posId : String) (s : PortfolioState) (aid : String)
       (pre post : List Portfolio) (p : Portfolio) (t : Trade),
       s.activePortfolioId = some aid →
       findSplit (fun q => q.id == aid) s.portfolios = some (pre, p, post) →
       t.type = Side.sell →
       (∀ pos ∈ p.positions, pos.symbol ≠ t.symbol) →
       executeTrade now txId posId s t = (s, false))
    ∧
    (∀ (now : ℕ) (txId posId : String) (s : PortfolioState) (aid : String)
       (pre post : List Portfolio) (p : Portfolio) (t : Trade)
       (pre2 post2 : List Position) (pos : Position),
       s.activePortfolioId = some aid →
       findSplit (fun q => q.id == aid) s.portfolios = some (pre, p, post) →
       t.type = Side.sell →
       findSplit (fun q => q.symbol == t.symbol) p.positions
         = some (pre2, pos, post2) →
       pos.quantity < t.quantity →
       executeTrade now txId posId s t = (s, false)) := by
  constructor
  · intro now txId posId s aid pre post p t ha hf hsell hno
    have hnone : findSplit (fun q => q.symbol == t.symbol) p.positions = none :=
      findSplit_eq_none (fun pos hmem => by
        simpa using hno pos hmem)
    simp [executeTrade, ha, hf, executeTradeOn, hsell, hnone]
  · intro now txId posId s aid pre post p t pre2 post2 pos ha hf hsell hfp hlt
    simp [executeTrade, ha, hf, executeTradeOn, hsell, hfp, hlt]

/-- A held ETH position of quantity 1 at entry price 100. -/
def ethPos : Position :=
  { id := "pos_1", symbol := "ETH", quantity := 1, entryPrice := 100,
    entryTime := 0, type := PosType.long }

/-- A portfolio holding only `ethPos`. -/
def ethPortfolio : Portfolio :=
  { freshPortfolio with
    balance := 99900, currentBalance := 99900, positions := [ethPos] }

/-- Store holding one portfolio with a single ETH position of quantity 1. -/
def ethStore : PortfolioState :=
  { portfolios := [ethPortfolio], activePortfolioId := some "portfolio_1" }

/-- C3 witness: selling BTC (no position) fails, and selling 2 ETH against
a held quantity of 1 fails; both leave the store untouched. -/
theorem C3_sell_failures_atomic_witness :
    executeTrade 0 "tx_1" "pos_9" ethStore ⟨"BTC", Side.sell, 1, 100⟩
      = (ethStore, false)
    ∧ executeTrade 0 "tx_1" "pos_9" ethStore ⟨"ETH", Side.sell, 2, 100⟩
      = (ethStore, false) := by
  constructor
  · exact C3_sell_failures_atomic.1 0 "tx_1" "pos_9" ethStore "portfolio_1"
      [] [] ethPortfolio ⟨"BTC", Side.sell, 1, 100⟩ rfl (by decide) rfl
      (by
        intro pos hmem
        simp [ethPortfolio, freshPortfolio, ethPos] at hmem
        subst hmem
        decide)
  · exact C3_sell_failures_atomic.2 0 "tx_1" "pos_9" ethStore "portfolio_1"
      [] [] ethPortfolio ⟨"ETH", Side.sell, 2, 100⟩ [] [] ethPos
      rfl (by decide) rfl (by decide) (by norm_num [ethPos])

/-- C4: a buy against an existing (first-found) position for the symbol —
all positions the portfolio store creates are long, the same side as a buy
— merges into that single position: `newQuantity = oldQuantity + quantity`
and `newEntryPrice = (oldQuantity×oldEntryPrice + quantity×price) /
newQuantity`, with cash debited by the total cost and one transaction
appended. -/
theorem C4_same_side_merge (now : ℕ) (txId posId : String) (p : Portfolio)
    (t : Trade) (pre post : List Position) (pos : Position)
    (hbuy : t.type = Side.buy)
    (hf : findSplit (fun q => q.symbol == t.symbol) p.positions
        = some (pre, pos, post))
    (hcash : ¬ p.balance < t.quantity * t.price) :
    executeTradeOn now txId posId p t
      = some { p with
          positions := pre ++ mergedPosition pos t :: post
          balance := p.balance - t.quantity * t.price
          currentBalance := p.balance - t.quantity * t.price
          transactions := p.transactions ++ [tradeTransaction txId now p.id t] }
    ∧ (mergedPosition pos t).quantity = pos.quantity + t.quantity
    ∧ (mergedPosition pos t).entryPrice
        = (pos.quantity * pos.entryPrice + t.quantity * t.price)
          / (pos.quantity + t.quantity) := by
  refine ⟨?_, rfl, rfl⟩
  simp [executeTradeOn, hbuy, hcash, hf]

/-- A portfolio holding 1 BTC at entry price 100. -/
def btcPos : Position :=
  { id := "pos_1", symbol := "BTC", quantity := 1, entryPrice := 100,
    entryTime := 0, type := PosType.long }

/-- The portfolio after buying 1 BTC @ 100 from a fresh 100000 balance. -/
def btcPortfolio : Portfolio :=
  { freshPortfolio with
    balance := 99900, currentBalance := 99900, positions := [btcPos] }

/-- C4 witness: buying 1 more BTC @ 200 (after 1 BTC @ 100) merges into a
single position with quantity 2 and entry price 150. -/
theorem C4_same_side_merge_witness :
    (executeTradeOn 0 "tx_2" "pos_2" btcPortfolio ⟨"BTC", Side.buy, 1, 200⟩
      = some { btcPortfolio with
          positions := [] ++ mergedPosition btcPos ⟨"BTC", Side.buy, 1, 200⟩ :: []
          balance := btcPortfolio.balance - 1 * 200
          currentBalance := btcPortfolio.balance - 1 * 200
          transactions := btcPortfolio.transactions
            ++ [tradeTransaction "tx_2" 0 btcPortfolio.id ⟨"BTC", Side.buy, 1, 200⟩] })
    ∧ (mergedPosition btcPos ⟨"BTC", Side.buy, 1, 200⟩).quantity = 2
    ∧ (mergedPosition btcPos ⟨"BTC", Side.buy, 1, 200⟩).entryPrice = 150 := by
  have h := C4_same_side_merge 0 "tx_2" "pos_2" btcPortfolio
    ⟨"BTC", Side.buy, 1, 200⟩ [] [] btcPos rfl (by decide)
    (by norm_num [btcPortfolio, freshPortfolio])
  refine ⟨h.1, ?_, ?_⟩
  · norm_num [mergedPosition, btcPos]
  · norm_num [mergedPosition, btcPos]

/-- C5: a sell of exactly the held (first-found) position's quantity
removes that position from the position list — it is not retained as a
zero-quantity row — credits cash with `quantity × price`, and appends
exactly one new transaction to the portfolio's transaction log. -/
theorem C5_full_close_removes_position (now : ℕ) (txId posId : String)
    (p : Portfolio) (t : Trade) (pre post : List Position) (pos : Position)
    (hsell : t.type = Side.sell)
    (hf : findSplit (fun q => q.symbol == t.symbol) p.positions
        = some (pre, pos, post))
    (hq : t.quantity = pos.quantity) :
    executeTradeOn now txId posId p t
      = some { p with
          positions := pre ++ post
          balance := p.balance + t.quantity * t.price
          currentBalance := p.balance + t.quantity * t.price
          transactions := p.transactions ++ [tradeTransaction txId now p.id t] } := by
  simp [executeTradeOn, hsell, hf, hq]

/-- C5 witness: selling the whole held quantity of 1 ETH @ 120 removes the
position and appends exactly one sell transaction. -/
theorem C5_full_close_removes_position_witness :
    executeTradeOn 7 "tx_2" "pos_9" ethPortfolio ⟨"ETH", Side.sell, 1, 120⟩
      = some { ethPortfolio with
          positions := ([] : List Position) ++ []
          balance := ethPortfolio.balance + 1 * 120
          currentBalance := ethPortfolio.balance + 1 * 120
          transactions := ethPortfolio.transactions
            ++ [tradeTransaction "tx_2" 7 ethPortfolio.id ⟨"ETH", Side.sell, 1, 120⟩] } :=
  C5_full_close_removes_position 7 "tx_2" "pos_9" ethPortfolio
    ⟨"ETH", Side.sell, 1, 120⟩ [] [] ethPos rfl (by decide) (by decide)

theorem foldl_add_sum {α : Type} (f : α → ℚ) :
    ∀ (l : List α) (init : ℚ),
      l.foldl (fun total x => total + f x) init = init + (l.map f).sum := by
  intro l
  induction l with
  | nil => intro init; simp
  | cons a as ih =>
    intro init
    simp only [List.foldl_cons, List.map_cons, List.sum_cons, ih]
    ring

/-- C7 as stated is false on the code: the fallback to the entry price is
JS `||`, which also fires on a *present* price of 0.  With one BTC position
(quantity 1, entry 100) and the price map `{BTC: 0}`, `getPortfolioValue`
returns `balance + 100` while the spec formula `priceMap[sym] ?? entryPrice`
gives `balance + 0`. -/
theorem C7_claim_counterexample :
    getPortfolioValue
        { portfolios := [btcPortfolio], activePortfolioId := some "portfolio_1" }
        "portfolio_1" [("BTC", 0)]
      ≠ specPortfolioValue btcPortfolio [("BTC", 0)] := by
  norm_num +decide [getPortfolioValue, specPortfolioValue, btcPortfolio,
    freshPortfolio, btcPos, priceOrFallback, lookupPrice]

/-- C7 (amended): for the portfolio found for the id, the portfolio value
is `cashBalance + Σ quantity × (priceMap[symbol] falling back to the entry
price when the symbol is missing OR its mapped price is 0)`; in particular
it is exactly `cashBalance` when the position set is empty. -/
theorem C7_portfolio_value (s : PortfolioState) (pid : String)
    (prices : PriceMap) (portfolio : Portfolio)
    (hfind : List.find? (fun p => p.id == pid) s.portfolios = some portfolio) :
    getPortfolioValue s pid prices
      = portfolio.balance
        + (portfolio.positions.map
            (fun pos => pos.quantity
              * priceOrFallback prices pos.symbol pos.entryPrice)).sum
    ∧ (portfolio.positions = [] →
        getPortfolioValue s pid prices = portfolio.balance) := by
  have hval : getPortfolioValue s pid prices
      = portfolio.balance
        + (portfolio.positions.map
            (fun pos => pos.quantity
              * priceOrFallback prices pos.symbol pos.entryPrice)).sum := by
    simp only [getPortfolioValue, hfind]
    exact foldl_add_sum _ portfolio.positions portfolio.balance
  refine ⟨hval, fun hempty => ?_⟩
  rw [hval, hempty]
  simp

/-- C7 witness: on a store whose found portfolio holds 1 BTC at entry 100
with balance 99900 and price map `{BTC: 120}`, the value is
`99900 + 1 × 120`; a sibling empty portfolio values to exactly its
balance. -/
theorem C7_portfolio_value_witness :
    getPortfolioValue
        { portfolios := [btcPortfolio], activePortfolioId := some "portfolio_1" }
        "portfolio_1" [("BTC", 120)]
      = btcPortfolio.balance
        + (btcPortfolio.positions.map
            (fun pos => pos.quantity
              * priceOrFallback [("BTC", 120)] pos.symbol pos.entryPrice)).sum
    ∧ getPortfolioValue
        { portfolios := [freshPortfolio], activePortfolioId := some "portfolio_1" }
        "portfolio_1" []
      = freshPortfolio.balance := by
  constructor
  · exact (C7_portfolio_value
      { portfolios := [btcPortfolio], activePortfolioId := some "portfolio_1" }
      "portfolio_1" [("BTC", 120)] btcPortfolio (by decide)).1
  · exact (C7_portfolio_value
      { portfolios := [freshPortfolio], activePortfolioId := some "portfolio_1" }
      "portfolio_1" [] freshPortfolio (by decide)).2 rfl

/-- C10: valuation of an unknown portfolio id silently reports zero rather
than a `PortfolioNotFound` error: both `getPortfolioValue` and
`getTotalPnL` return 0. -/
theorem C10_unknown_portfolio_zero (s : PortfolioState) (pid : String)
    (prices : PriceMap)
    (h : ∀ p ∈ s.portfolios, p.id ≠ pid) :
    getPortfolioValue s pid prices = 0 ∧ getTotalPnL s pid prices = 0 := by
  have hfind : List.find? (fun p => p.id == pid) s.portfolios = none := by
    rw [List.find?_eq_none]
    intro p hp
    simpa using h p hp
  simp [getPortfolioValue, getTotalPnL, hfind]

/-- C10 witness: an id held by no portfolio values to 0 with 0 total
P&L. -/
theorem C10_unknown_portfolio_zero_witness :
    getPortfolioValue ethStore "no_such_portfolio" [("ETH", 120)] = 0
    ∧ getTotalPnL ethStore "no_such_portfolio" [("ETH", 120)] = 0 :=
  C10_unknown_portfolio_zero ethStore "no_such_portfolio" [("ETH", 120)]
    (by
      intro p hp
      simp [ethStore, ethPortfolio, freshPortfolio] at hp
      subst hp
      decide)

/-- C9: on a store satisfying the initialization invariant (non-empty
portfolio list, generated non-empty ids, active id referring to an existing
portfolio), `deletePortfolio` keeps at least one portfolio and keeps the
active id pointing at an existing portfolio.  Deleting the last portfolio
replaces the store with a fresh default portfolio (100000 starting balance,
no positions or transactions) which becomes active; deleting the active
portfolio while others remain makes the first remaining portfolio
active. -/
theorem C9_delete_portfolio_invariant (now : ℕ) (freshId : String)
    (s : PortfolioState) (pid aid : String)
    (hne : s.portfolios ≠ [])
    (hids : ∀ p ∈ s.portfolios, p.id ≠ "")
    (ha : s.activePortfolioId = some aid)
    (hmem : ∃ p ∈ s.portfolios, p.id = aid) :
    (deletePortfolio now freshId s pid).portfolios ≠ []
    ∧ (∃ a, (deletePortfolio now freshId s pid).activePortfolioId = some a
          ∧ ∃ p ∈ (deletePortfolio now freshId s pid).portfolios, p.id = a)
    ∧ (s.portfolios.filter (fun p => !(p.id == pid)) = [] →
        deletePortfolio now freshId s pid
          = { portfolios := [defaultPortfolio now freshId],
              activePortfolioId := some freshId })
    ∧ (aid = pid →
        ∀ q rest, s.portfolios.filter (fun p => !(p.id == pid)) = q :: rest →
          (deletePortfolio now freshId s pid).activePortfolioId = some q.id
          ∧ (deletePortfolio now freshId s pid).portfolios = q :: rest) := by
  by_cases hrem : s.portfolios.filter (fun p => !(p.id == pid)) = []
  · have hdel : deletePortfolio now freshId s pid
        = { portfolios := [defaultPortfolio now freshId],
            activePortfolioId := some freshId } := by
      simp [deletePortfolio, hrem]
    refine ⟨by simp [hdel], ⟨freshId, by simp [hdel], ?_⟩, fun _ => hdel,
      fun _ q rest hcontra => absurd (hrem.symm.trans hcontra) (by simp)⟩
    exact ⟨defaultPortfolio now freshId, by simp [hdel, defaultPortfolio]⟩
  · obtain ⟨q, rest, hqr⟩ := List.exists_cons_of_ne_nil hrem
    have hqmem : q ∈ s.portfolios := by
      have : q ∈ s.portfolios.filter (fun p => !(p.id == pid)) := by
        rw [hqr]; exact List.mem_cons_self _ _
      exact (List.mem_filter.mp this).1
    have hqid : q.id ≠ "" := hids q hqmem
    have hports : (deletePortfolio now freshId s pid).portfolios
        = q :: rest := by
      simp [deletePortfolio, hrem, hqr]
    refine ⟨by rw [hports]; simp, ?_, fun hcontra => absurd hcontra hrem, ?_⟩
    · by_cases hap : aid = pid
      · have hact : (deletePortfolio now freshId s pid).activePortfolioId
            = some q.id := by
          simp [deletePortfolio, hrem, ha, hap, hqr, hqid]
        exact ⟨q.id, hact, q, by rw [hports]; exact List.mem_cons_self _ _, rfl⟩
      · have hact : (deletePortfolio now freshId s pid).activePortfolioId
            = some aid := by
          simp [deletePortfolio, hrem, ha, hap]
        obtain ⟨p, hp, hpid⟩ := hmem
        refine ⟨aid, hact, p, ?_, hpid⟩
        rw [hports, ← hqr]
        rw [List.mem_filter]
        refine ⟨hp, ?_⟩
        simp [hpid, hap]
    · intro hap q' rest' hqr'
      have hinj := hqr.symm.trans hqr'
      injection hinj with h1 h2
      subst h1
      subst h2
      constructor
      · simp [deletePortfolio, hrem, ha, hap, hqr, hqid]
      · exact hports

/-- A second portfolio alongside `freshPortfolio`. -/
def secondPortfolio : Portfolio :=
  { freshPortfolio with id := "portfolio_2", name := "Second Portfolio" }

/-- A store with two portfolios, the first one active. -/
def twoStore : PortfolioState :=
  { portfolios := [freshPortfolio, secondPortfolio],
    activePortfolioId := some "portfolio_1" }

/-- C9 witness: deleting the active portfolio of a two-portfolio store
leaves a non-empty store whose active id points at the surviving (first
remaining) portfolio. -/
theorem C9_delete_portfolio_invariant_witness :
    (deletePortfolio 5 "portfolio_9" twoStore "portfolio_1").portfolios ≠ []
    ∧ (∃ a, (deletePortfolio 5 "portfolio_9" twoStore "portfolio_1").activePortfolioId
            = some a
          ∧ ∃ p ∈ (deletePortfolio 5 "portfolio_9" twoStore "portfolio_1").portfolios,
              p.id = a)
    ∧ (twoStore.portfolios.filter (fun p => !(p.id == "portfolio_1")) = [] →
        deletePortfolio 5 "portfolio_9" twoStore "portfolio_1"
          = { portfolios := [defaultPortfolio 5 "portfolio_9"],
              activePortfolioId := some "portfolio_9" })
    ∧ ("portfolio_1" = "portfolio_1" →
        ∀ q rest,
          twoStore.portfolios.filter (fun p => !(p.id == "portfolio_1")) = q :: rest →
          (deletePortfolio 5 "portfolio_9" twoStore "portfolio_1").activePortfolioId
            = some q.id
          ∧ (deletePortfolio 5 "portfolio_9" twoStore "portfolio_1").portfolios
            = q :: rest) :=
  C9_delete_portfolio_invariant 5 "portfolio_9" twoStore "portfolio_1"
    "portfolio_1" (by decide) (by decide) rfl (by decide)

end PortfolioStore

/-- C8 as stated is false on the code: the configured fee-rate constant
`DEFAULT_TRADING_FEE_PERCENT` is `0.001`, not `0`, and the position store's
recorded fee for a fill of 1 @ 100 is `0.1`, not `0`. -/
theorem C8_claim_counterexample :
    PositionStore.DEFAULT_TRADING_FEE_PERCENT ≠ 0
    ∧ (PositionStore.fillTransaction "tx_1" 0 "portfolio_1" "BTC"
        Side.buy 1 100).fee ≠ 0 := by
  constructor <;>
    norm_num [PositionStore.DEFAULT_TRADING_FEE_PERCENT,
      PositionStore.fillTransaction]

/-- The position store's `executeTrade` always appends the fill transaction
(with its fee) right after the previous log; a closing transaction, when
produced, follows it. -/
theorem positionStore_appends_fill (txId txId2 posId : String) (now : ℕ)
    (s : PositionStore.StoreState) (pid sym : String) (side : Side)
    (q price : ℚ) :
    ∃ rest,
      (PositionStore.executeTrade txId txId2 posId now s pid sym side q price).transactions
        = s.transactions
          ++ PositionStore.fillTransaction txId now pid sym side q price :: rest := by
  unfold PositionStore.executeTrade
  cases hfind : List.find? (fun p => p.portfolioId == pid && p.symbol == sym)
      s.positions with
  | none => exact ⟨[], by simp⟩
  | some existing =>
    by_cases hside : existing.side = side
    · exact ⟨[], by simp [hside]⟩
    · by_cases hle : existing.quantity ≤ q
      · cases hfind2 : List.find? (fun p => p.id == existing.id) s.positions with
        | none =>
          by_cases hlt : existing.quantity < q
          · exact ⟨[], by simp [hside, hle, hlt, PositionStore.closePosition, hfind2]⟩
          · exact ⟨[], by simp [hside, hle, hlt, PositionStore.closePosition, hfind2]⟩
        | some position =>
          by_cases hlt : existing.quantity < q
          · exact ⟨_, by
              simp [hside, hle, hlt, PositionStore.closePosition, hfind2]
              rfl⟩
          · exact ⟨_, by
              simp [hside, hle, hlt, PositionStore.closePosition, hfind2]
              rfl⟩
      · exact ⟨[], by simp [hside, hle]⟩

/-- C8 (amended): the configured fee rate is `0.001` (0.1%), the position
store records `fee = quantity × price × 0.001` on every fill transaction it
appends, while the portfolio ledger applies no fee to cash at all: a
successful buy debits exactly `quantity × price` and a successful sell
credits exactly `quantity × price`. -/
theorem C8_fee_rate_amended :
    PositionStore.DEFAULT_TRADING_FEE_PERCENT = 1 / 1000
    ∧ (∀ (txId : String) (now : ℕ) (pid sym : String) (side : Side)
         (q price : ℚ),
        (PositionStore.fillTransaction txId now pid sym side q price).fee
          = q * price * (1 / 1000))
    ∧ (∀ (txId txId2 posId : String) (now : ℕ)
         (s : PositionStore.StoreState) (pid sym : String) (side : Side)
         (q price : ℚ), ∃ rest,
        (PositionStore.executeTrade txId txId2 posId now s pid sym side q price).transactions
          = s.transactions
            ++ PositionStore.fillTransaction txId now pid sym side q price :: rest)
    ∧ (∀ (now : ℕ) (txId posId : String) (p : PortfolioStore.Portfolio)
         (t : PortfolioStore.Trade) (p2 : PortfolioStore.Portfolio),
        t.type = Side.buy →
        PortfolioStore.executeTradeOn now txId posId p t = some p2 →
        p2.balance = p.balance - t.quantity * t.price)
    ∧ (∀ (now : ℕ) (txId posId : String) (p : PortfolioStore.Portfolio)
         (t : PortfolioStore.Trade) (p2 : PortfolioStore.Portfolio),
        t.type = Side.sell →
        PortfolioStore.executeTradeOn now txId posId p t = some p2 →
        p2.balance = p.balance + t.quantity * t.price) := by
  refine ⟨rfl, fun _ _ _ _ _ _ _ => rfl,
    fun txId txId2 posId now s pid sym side q price =>
      positionStore_appends_fill txId txId2 posId now s pid sym side q price,
    ?_, ?_⟩
  · intro now txId posId p t p2 hbuy h
    by_cases hb : p.balance < t.quantity * t.price
    · simp [PortfolioStore.executeTradeOn, hbuy, hb] at h
    · simp [PortfolioStore.executeTradeOn, hbuy, hb] at h
      rw [← h]
  · intro now txId posId p t p2 hsell h
    cases hfs : findSplit (fun q => q.symbol == t.symbol) p.positions with
    | none => simp [PortfolioStore.executeTradeOn, hsell, hfs] at h
    | some triple =>
      obtain ⟨pre, pos, post⟩ := triple
      by_cases hlt : pos.quantity < t.quantity
      · simp [PortfolioStore.executeTradeOn, hsell, hfs, hlt] at h
      · simp [PortfolioStore.executeTradeOn, hsell, hfs, hlt] at h
        rw [← h]

/-- The portfolio after buying 1 BTC @ 100 from a fresh one (fee-free cash
debit of exactly 100). -/
def c8BuyAfter : PortfolioStore.Portfolio :=
  { PortfolioStore.btcPortfolio with
    transactions := [PortfolioStore.tradeTransaction "tx_1" 0 "portfolio_1"
      ⟨"BTC", Side.buy, 1, 100⟩] }

/-- The portfolio after selling the whole 1-ETH position @ 120 (fee-free
cash credit of exactly 120). -/
def c8SellAfter : PortfolioStore.Portfolio :=
  { PortfolioStore.ethPortfolio with
    balance := 100020, currentBalance := 100020, positions := [],
    transactions := [PortfolioStore.tradeTransaction "tx_2" 0 "portfolio_1"
      ⟨"ETH", Side.sell, 1, 120⟩] }

/-- C8 witness: the fee constant, a concrete recorded fee of
`1 × 100 × 0.001`, the appended fill transaction on a concrete store, and
fee-free cash movements for a concrete buy and a concrete sell. -/
theorem C8_fee_rate_amended_witness :
    PositionStore.DEFAULT_TRADING_FEE_PERCENT = 1 / 1000
    ∧ (PositionStore.fillTransaction "tx_1" 0 "portfolio_1" "BTC"
        Side.buy 1 100).fee = 1 * 100 * (1 / 1000)
    ∧ (∃ rest,
        (PositionStore.executeTrade "tx_1" "tx_2" "pos_9" 3 psStore
          "portfolio_1" "BTC" Side.sell 1 500).transactions
          = psStore.transactions
            ++ PositionStore.fillTransaction "tx_1" 3 "portfolio_1" "BTC"
                Side.sell 1 500 :: rest)
    ∧ c8BuyAfter.balance = PortfolioStore.freshPortfolio.balance - 1 * 100
    ∧ c8SellAfter.balance = PortfolioStore.ethPortfolio.balance + 1 * 120 := by
  refine ⟨C8_fee_rate_amended.1,
    C8_fee_rate_amended.2.1 "tx_1" 0 "portfolio_1" "BTC" Side.buy 1 100,
    C8_fee_rate_amended.2.2.1 "tx_1" "tx_2" "pos_9" 3 psStore "portfolio_1"
      "BTC" Side.sell 1 500, ?_, ?_⟩
  · exact C8_fee_rate_amended.2.2.2.1 0 "tx_1" "pos_1"
      PortfolioStore.freshPortfolio ⟨"BTC", Side.buy, 1, 100⟩ c8BuyAfter rfl
      (by norm_num +decide [PortfolioStore.executeTradeOn,
        PortfolioStore.freshPortfolio, PortfolioStore.btcPortfolio,
        PortfolioStore.btcPos, PortfolioStore.newBuyPosition,
        PortfolioStore.tradeTransaction, findSplit, c8BuyAfter])
  · exact C8_fee_rate_amended.2.2.2.2 0 "tx_2" "pos_9"
      PortfolioStore.ethPortfolio ⟨"ETH", Side.sell, 1, 120⟩ c8SellAfter rfl
      (by norm_num +decide [PortfolioStore.executeTradeOn,
        PortfolioStore.freshPortfolio, PortfolioStore.ethPortfolio,
        PortfolioStore.ethPos, PortfolioStore.tradeTransaction, findSplit,
        c8SellAfter])

/-- C6: a partial sell (`0 < s < q`) is cost-basis preserving.  In the
portfolio store the held position is replaced by the same record with only
`quantity` reduced to `q − s` (entry price literally unchanged) and cash is
credited `s × price` (there is no fee in this ledger).  In the position
store the same reduction updates only `quantity`, the cached
`currentPrice`, and the `updatedAt` timestamp of the matched position. -/
theorem C6_partial_close_preserves_cost_basis :
    (∀ (now : ℕ) (txId posId : String) (p : PortfolioStore.Portfolio)
       (t : PortfolioStore.Trade)
       (pre post : List PortfolioStore.Position) (pos : PortfolioStore.Position),
       t.type = Side.sell →
       findSplit (fun q => q.symbol == t.symbol) p.positions
         = some (pre, pos, post) →
       0 < t.quantity → t.quantity < pos.quantity →
       PortfolioStore.executeTradeOn now txId posId p t
         = some { p with
             positions :=
               pre ++ { pos with quantity := pos.quantity - t.quantity } :: post
             balance := p.balance + t.quantity * t.price
             currentBalance := p.balance + t.quantity * t.price
             transactions := p.transactions
               ++ [PortfolioStore.tradeTransaction txId now p.id t] })
    ∧
    (∀ (txId txId2 posId : String) (now : ℕ) (s : PositionStore.StoreState)
       (pid sym : String) (side : Side) (q price : ℚ)
       (existing : PositionStore.Position),
       List.find? (fun p => p.portfolioId == pid && p.symbol == sym) s.positions
         = some existing →
       ¬ existing.side = side →
       q < existing.quantity →
       PositionStore.executeTrade txId txId2 posId now s pid sym side q price
         = { positions :=
               s.positions.map (fun p =>
                 if p.id == existing.id then
                   { p with
                     quantity := existing.quantity - q
                     currentPrice := price
                     updatedAt := now }
                 else p)
             transactions := s.transactions
               ++ [PositionStore.fillTransaction txId now pid sym side q price] }) := by
  constructor
  · intro now txId posId p t pre post pos hsell hf hq hlt
    have h1 : ¬ pos.quantity < t.quantity := not_lt.mpr (le_of_lt hlt)
    have h2 : ¬ pos.quantity = t.quantity := ne_of_gt hlt
    simp [PortfolioStore.executeTradeOn, hsell, hf, h1, h2]
  · intro txId txId2 posId now s pid sym side q price existing hfind hside hlt
    have h1 : ¬ existing.quantity ≤ q := not_le.mpr hlt
    simp [PositionStore.executeTrade, hfind, hside, h1]

/-- A held position-store position: 2 BTC long at entry 100. -/
def psPos : PositionStore.Position :=
  { id := "pos_1", portfolioId := "portfolio_1", symbol := "BTC",
    side := Side.buy, quantity := 2, entryPrice := 100, currentPrice := 100,
    unrealizedPnL := 0, unrealizedPnLPercent := 0, createdAt := 0,
    updatedAt := 0 }

/-- Position store holding just `psPos`. -/
def psStore : PositionStore.StoreState :=
  { positions := [psPos], transactions := [] }

/-- C6 witness: holding quantity 2 @ entry 100, selling 1 @ 500 leaves the
remaining position at quantity 1 with entry price still 100 in both stores,
and credits 1 × 500 cash in the portfolio ledger. -/
theorem C6_partial_close_preserves_cost_basis_witness :
    (PortfolioStore.executeTradeOn 3 "tx_2" "pos_9"
        { PortfolioStore.freshPortfolio with
          balance := 99800, currentBalance := 99800,
          positions := [{ PortfolioStore.btcPos with quantity := 2 }] }
        ⟨"BTC", Side.sell, 1, 500⟩
      = some { PortfolioStore.freshPortfolio with
          balance := 99800 + 1 * 500
          currentBalance := 99800 + 1 * 500
          positions :=
            [] ++ { PortfolioStore.btcPos with quantity := 2 - 1 } :: []
          transactions := [PortfolioStore.tradeTransaction "tx_2" 3 "portfolio_1"
            ⟨"BTC", Side.sell, 1, 500⟩] })
    ∧
    (PositionStore.executeTrade "tx_1" "tx_9" "pos_9" 3 psStore
        "portfolio_1" "BTC" Side.sell 1 500
      = { positions :=
            [psPos].map (fun p =>
              if p.id == psPos.id then
                { p with quantity := 2 - 1, currentPrice := 500, updatedAt := 3 }
              else p)
          transactions := [PositionStore.fillTransaction "tx_1" 3 "portfolio_1"
            "BTC" Side.sell 1 500] }) := by
  constructor
  · exact C6_partial_close_preserves_cost_basis.1 3 "tx_2" "pos_9"
      { PortfolioStore.freshPortfolio with
        balance := 99800, currentBalance := 99800,
        positions := [{ PortfolioStore.btcPos with quantity := 2 }] }
      ⟨"BTC", Side.sell, 1, 500⟩ [] [] { PortfolioStore.btcPos with quantity := 2 }
      rfl (by decide) (by norm_num) (by norm_num [PortfolioStore.btcPos])
  · exact C6_partial_close_preserves_cost_basis.2 "tx_1" "tx_9" "pos_9" 3
      psStore "portfolio_1" "BTC" Side.sell 1 500 psPos
      (by decide) (by decide) (by norm_num [psPos])

end Tristero
